import Mathlib

/-!
Shallow embedding of the TruthLens core (`src/backend/logic.py`):
the domain reputation matcher `check_phishing` and the review scoring
engine `analyze_reviews`.  Python floats are modelled exactly as
rationals (`ℚ`); Python's `round` (banker's rounding, ties to even) is
modelled by `pyRound`; fallible external collaborators (the HuggingFace
sentiment model, TextBlob, the Gemini narrative generator, `urlparse`)
are modelled as explicit oracle parameters whose `Option`/record results
capture success and exception outcomes.
-/

namespace TruthLens

/-- Python 3 `round(x)` on an exact rational: round to the nearest
integer, ties going to the even neighbour (banker's rounding). -/
def pyRound (q : ℚ) : ℤ :=
  if Int.fract q < 1/2 then ⌊q⌋
  else if (1:ℚ)/2 < Int.fract q then ⌊q⌋ + 1
  else if ⌊q⌋ % 2 = 0 then ⌊q⌋ else ⌊q⌋ + 1

/-- Python `round(x, 2)`: round to two decimal places, ties to even. -/
def round2 (q : ℚ) : ℚ := (pyRound (q * 100) : ℚ) / 100

/-- `statistics.mean`; the Python function demands a non-empty list and
every call site guards for that, so the junk value at `[]` is never
relevant. -/
def mean (xs : List ℚ) : ℚ := xs.sum / xs.length

/-- `statistics.pvariance`: population variance.  The source only ever
uses the population standard deviation `pstdev = sqrt pvariance` in the
comparison `pstdev < 0.2`, which is equivalent (sqrt being monotone on
nonnegatives) to `pvariance < 0.04`, so the embedding stays in `ℚ`. -/
def pvariance (xs : List ℚ) : ℚ :=
  (xs.map (fun x => (x - mean xs)^2)).sum / xs.length

/-- `WHITELIST_DOMAINS` from `logic.py`. -/
def WHITELIST_DOMAINS : List String :=
  ["amazon.com", "flipkart.com", "ebay.com", "walmart.com", "amazon.in", "meesho.com"]

/-- The whitelist as character lists, for the character-level domain
manipulations. -/
def WLdata : List (List Char) := WHITELIST_DOMAINS.map String.data

/-- Python `str.split(sep)` for a single-character separator, over the
character list of the string.  `splitChar c l` is never empty and
joining its pieces with `c` restores `l`. -/
def splitChar (sep : Char) : List Char → List (List Char)
  | [] => [[]]
  | c :: cs =>
    match splitChar sep cs with
    | [] => [[c]]
    | h :: t => if c = sep then [] :: h :: t else (c :: h) :: t

/-- Python `sep.join(parts)` for a single-character separator. -/
def joinSep (sep : Char) : List (List Char) → List Char
  | [] => []
  | [x] => x
  | x :: xs => x ++ sep :: joinSep sep xs

/-- Unit-cost Levenshtein edit distance (insert/delete/substitute each
cost 1), as computed by the `Levenshtein.distance` C extension the
source calls. -/
def levDist (a b : List Char) : ℕ := levenshtein Levenshtein.defaultCost a b

/-- Lines 61-65 of `logic.py`: lower-case the netloc and drop a trailing
`:port` (`domain.split(":")[0]`). -/
def hostOf (netloc : String) : List Char :=
  if ':' ∈ netloc.toLower.data then (splitChar ':' netloc.toLower.data).headD []
  else netloc.toLower.data

/-- Lines 67-72 of `logic.py`: the "base domain" is the join of the last
two dot-separated labels when there are at least two, otherwise the host
itself. -/
def baseDomainOf (domain : List Char) : List Char :=
  if (splitChar '.' domain).length ≥ 2 then
    joinSep '.' ((splitChar '.' domain).drop ((splitChar '.' domain).length - 2))
  else domain

/-- Lines 74-82 of `logic.py`: the whitelist tiering applied to a parsed
netloc. -/
def classifyHost (netloc : String) : String :=
  if baseDomainOf (hostOf netloc) ∈ WLdata ∨ hostOf netloc ∈ WLdata then "Safe"
  else if ∃ safe ∈ WLdata, levDist (baseDomainOf (hostOf netloc)) safe ≤ 2 then
    "Phishing Warning"
  else "Suspicious"

/-- `check_phishing` from `logic.py`.  `urlparse` is the only statement
in the function body that can raise; it is modelled by the oracle
`parse`, whose `none` result is the exception caught by the bare
`except`, and whose `some netloc` result is the parsed netloc. -/
def check_phishing (parse : String → Option String) (url : String) : String :=
  match parse url with
  | some netloc => classifyHost netloc
  | none => "Unknown"

/-- One result record of the HuggingFace sentiment pipeline: its label
(`res.get("label") or ""`) and confidence (`float(res.get("score", 0.5))`). -/
structure HFRes where
  label : String
  score : ℚ

/-- Lines 115-123 of `logic.py`: map a POSITIVE label of confidence `s`
to `2s-1` and any other label to `1-2s`.  Python tests
`"POSITIVE" in label.upper()` (substring containment). -/
def hfPolarity (res : HFRes) : ℚ :=
  if "POSITIVE".data.IsInfix res.label.toUpper.data then 2 * res.score - 1
  else 1 - 2 * res.score

/-- Lines 110-133 of `logic.py`: the dual-path sentiment estimator.
`hf` models the optional batch model (`hf_sentiment`): `none` when the
pipeline failed to load; `some f` with `f texts = none` when the batch
call raises (the `except` resets `polarities` to `[]`, discarding any
partial results); `some f` with `f texts = some results` on success.
`tb` models `TextBlob(text).sentiment.polarity`, `none` standing for a
per-text exception, which the source replaces by `0.0`. -/
def hfPart (hf : Option (List String → Option (List HFRes)))
    (texts : List String) : List ℚ :=
  match hf with
  | none => []
  | some f =>
    if texts = [] then []
    else
      match f texts with
      | none => []
      | some results => results.map hfPolarity

/-- Lines 127-133 of `logic.py`: when the model branch left `polarities`
empty (model absent, batch call failed, no texts, or no results), the
TextBlob loop fills it per text instead. -/
def computePolarities (hf : Option (List String → Option (List HFRes)))
    (tb : String → Option ℚ) (texts : List String) : List ℚ :=
  if hfPart hf texts = [] then texts.map (fun t => (tb t).getD 0)
  else hfPart hf texts

/-- One review record as delivered by the orchestrator (`main.py`'s
`ReviewItem`), carrying the fields `analyze_reviews` can read. -/
structure Review where
  text : String
  rating : ℚ
  date : String
  verified : Bool
  platform : String

/-- The record the Gemini narrative section (lines 144-193 of
`logic.py`) produces: pros, cons and a verdict sentence. -/
structure GeminiOut where
  pros : List String
  cons : List String
  verdict : String

/-- The result record of `analyze_reviews` (lines 284-292 of
`logic.py`). -/
structure TrustAssessment where
  trust_score : ℤ
  sentiment_score : ℚ
  bot_probability : ℤ
  pros : List String
  cons : List String
  verdict : String
  safety_label : String

/-- `texts = [r.get('text', '') for r in reviews_data]` (line 93). -/
def textsOf (reviews_data : List Review) : List String :=
  reviews_data.map Review.text

/-- `ratings = [r.get('rating', 0) for r in reviews_data]` (line 94). -/
def ratingsOf (reviews_data : List Review) : List ℚ :=
  reviews_data.map Review.rating

/-- `avg_sentiment` (line 135): mean of the computed polarities, `0.0`
when the polarity list is empty. -/
def avgSentimentOf (hf : Option (List String → Option (List HFRes)))
    (tb : String → Option ℚ) (texts : List String) : ℚ :=
  if computePolarities hf tb texts = [] then 0
  else mean (computePolarities hf tb texts)

/-- `avg_rating` (line 136). -/
def avgRatingOf (ratings : List ℚ) : ℚ :=
  if ratings = [] then 0 else mean ratings

/-- `normalized_rating = (avg_rating - 2.5) / 2.5` (line 141). -/
def normalizedRating (avg_rating : ℚ) : ℚ := (avg_rating - 5/2) / (5/2)

/-- `discrepancy = abs(normalized_rating - avg_sentiment)` (line 142). -/
def discrepancyOf (avg_rating avg_sentiment : ℚ) : ℚ :=
  |normalizedRating avg_rating - avg_sentiment|

/-- `sentiment_component = (avg_sentiment + 1) / 2 * 100` (line 205). -/
def sentimentComponent (avg_sentiment : ℚ) : ℚ := (avg_sentiment + 1) / 2 * 100

/-- `rating_component` (line 207): rescaled stars, or the neutral prior
`50` when `avg_rating > 0` fails. -/
def ratingComponent (avg_rating : ℚ) : ℚ :=
  if avg_rating > 0 then avg_rating / 5 * 100 else 50

/-- `volume_component` (lines 210-220): a step function of the review
count. -/
def volumeComponent (review_count : ℕ) : ℚ :=
  if review_count = 0 then 20
  else if review_count < 5 then 45
  else if review_count < 20 then 70
  else if review_count < 50 then 85
  else 92

/-- The weighted initial trust score (lines 223-227). -/
def baseScore (avg_sentiment avg_rating : ℚ) (review_count : ℕ) : ℚ :=
  45/100 * sentimentComponent avg_sentiment
    + 35/100 * ratingComponent avg_rating
    + 20/100 * volumeComponent review_count

/-- `duplicates_count = max(0, len(texts) - len(set(texts)))`
(lines 230-231); `texts.dedup.length` is the cardinality of
`set(texts)`. -/
def duplicatesCountZ (texts : List String) : ℤ :=
  max 0 ((texts.length : ℤ) - (texts.dedup.length : ℤ))

/-- `duplicate_fraction` (line 232). -/
def duplicateFraction (texts : List String) : ℚ :=
  if texts.length > 0 then (duplicatesCountZ texts : ℚ) / (texts.length : ℚ) else 0

/-- `short_fraction` (lines 234-235): fraction of texts shorter than 30
characters. -/
def shortFraction (texts : List String) : ℚ :=
  if texts.length > 0 then
    ((texts.filter (fun t => t.length < 30)).length : ℚ) / (texts.length : ℚ)
  else 0

/-- The square of `rating_std` (lines 237-240): population variance for
two or more ratings, else `0`.  The source only compares `rating_std`
against `0.2`, which the embedding does as `ratingVar < 0.2 ^ 2`. -/
def ratingVar (ratings : List ℚ) : ℚ :=
  if ratings.length > 1 then pvariance ratings else 0

/-- The discrepancy contribution to `bot_prob` (lines 248-249). -/
def discTermBot (discrepancy : ℚ) : ℚ :=
  if discrepancy > 6/10 then min 20 ((discrepancy - 6/10) * 50) else 0

/-- The uniform-high-ratings contribution to `bot_prob`
(lines 251-252); `rating_std < 0.2` is expressed on squares. -/
def uniformityTerm (review_count : ℕ) (ratings : List ℚ) (avg_rating : ℚ) : ℚ :=
  if review_count ≥ 20 ∧ ratingVar ratings < (2/10)^2 ∧ avg_rating > 47/10 then 10
  else 0

/-- The additive bot probability before rounding and clamping
(lines 242-252). -/
def botProbRaw (texts : List String) (ratings : List ℚ)
    (avg_sentiment avg_rating : ℚ) : ℚ :=
  duplicateFraction texts * 60 + shortFraction texts * 30
    + discTermBot (discrepancyOf avg_rating avg_sentiment)
    + uniformityTerm texts.length ratings avg_rating

/-- `bot_prob = max(0, min(100, int(round(bot_prob))))` (line 254). -/
def botProb (texts : List String) (ratings : List ℚ)
    (avg_sentiment avg_rating : ℚ) : ℤ :=
  max 0 (min 100 (pyRound (botProbRaw texts ratings avg_sentiment avg_rating)))

/-- The discrepancy penalty on the score (lines 257-258). -/
def discPenalty (discrepancy : ℚ) : ℚ :=
  if discrepancy > 1/2 then (discrepancy - 1/2) * 30 else 0

/-- The duplicate penalty on the score (lines 261-262). -/
def dupPenalty (duplicates_count : ℤ) : ℚ :=
  if duplicates_count > 0 then min ((duplicates_count : ℚ) * 4) 16 else 0

/-- The score after all penalties (lines 223-271), as a function of the
average sentiment, the average rating and the texts. -/
def rawScore (avg_sentiment avg_rating : ℚ) (texts : List String) : ℚ :=
  baseScore avg_sentiment avg_rating texts.length
    - discPenalty (discrepancyOf avg_rating avg_sentiment)
    - dupPenalty (duplicatesCountZ texts)
    - (if mean (texts.map (fun t => (t.length : ℚ))) < 15 then 8 else 0)
    - (if texts.length < 5 then 5 else 0)

/-- `final_score = max(0, min(100, int(round(score))))` (line 274). -/
def finalScore (avg_sentiment avg_rating : ℚ) (texts : List String) : ℤ :=
  max 0 (min 100 (pyRound (rawScore avg_sentiment avg_rating texts)))

/-- The safety label (lines 277-282). -/
def labelOf (final_score : ℤ) : String :=
  if final_score ≥ 80 then "Likely Authentic"
  else if final_score ≥ 50 then "Moderate Risk"
  else "High Risk / Caution"

/-- `analyze_reviews` from `logic.py`.  The sentiment oracles `hf` and
`tb` are as in `computePolarities`; `gemini` models the whole Gemini
section (lines 144-193) including its error handling, as a function of
the first fifteen review records it is shown (line 159). -/
def analyze_reviews (hf : Option (List String → Option (List HFRes)))
    (tb : String → Option ℚ) (gemini : List Review → GeminiOut)
    (reviews_data : List Review) : TrustAssessment :=
  if textsOf reviews_data = [] then
    { trust_score := 0
      sentiment_score := 0
      bot_probability := 0
      pros := []
      cons := []
      verdict := "No reviews found to analyze."
      safety_label := "Unknown" }
  else
    { trust_score :=
        finalScore (avgSentimentOf hf tb (textsOf reviews_data))
          (avgRatingOf (ratingsOf reviews_data)) (textsOf reviews_data)
      sentiment_score := round2 (avgSentimentOf hf tb (textsOf reviews_data))
      bot_probability :=
        botProb (textsOf reviews_data) (ratingsOf reviews_data)
          (avgSentimentOf hf tb (textsOf reviews_data))
          (avgRatingOf (ratingsOf reviews_data))
      pros := (gemini (reviews_data.take 15)).pros
      cons := (gemini (reviews_data.take 15)).cons
      verdict := (gemini (reviews_data.take 15)).verdict
      safety_label :=
        labelOf (finalScore (avgSentimentOf hf tb (textsOf reviews_data))
          (avgRatingOf (ratingsOf reviews_data)) (textsOf reviews_data)) }

/-- Restatement of the claimed tiering input for `check_phishing`: the
registrable domain is the join of the last two dot-separated labels of
the lower-cased, port-stripped host (all labels when there are fewer
than two). -/
def spec_registrable (netloc : String) : List Char :=
  joinSep '.'
    ((splitChar '.' (hostOf netloc)).drop ((splitChar '.' (hostOf netloc)).length - 2))

/-- Modelled from the claim wording for the duplicate signal: the
fraction of reviews whose text is not unique within the set (occurs more
than once). -/
def nonUniqueFraction (texts : List String) : ℚ :=
  ((texts.filter (fun t => 1 < texts.count t)).length : ℚ) / (texts.length : ℚ)

/-- A fixed concrete Gemini oracle, for concrete evaluations: the
fallback record the source starts from. -/
def gemOff : List Review → GeminiOut := fun _ => ⟨[], [], "Analysis unavailable"⟩

/-- A 42-character review text used in concrete evaluations. -/
def dupText : String := "this review text is definitely long enough"

lemma pyRound_le (q : ℚ) : pyRound q ≤ ⌊q⌋ + 1 := by
  unfold pyRound; split_ifs <;> omega

lemma le_pyRound (q : ℚ) : ⌊q⌋ ≤ pyRound q := by
  unfold pyRound; split_ifs <;> omega

lemma pyRound_mono {a b : ℚ} (h : a ≤ b) : pyRound a ≤ pyRound b := by
  rcases lt_or_eq_of_le (Int.floor_le_floor h) with hf | hf
  · calc pyRound a ≤ ⌊a⌋ + 1 := pyRound_le a
      _ ≤ ⌊b⌋ := by omega
      _ ≤ pyRound b := le_pyRound b
  · have hfr : Int.fract a ≤ Int.fract b := by
      have hc : ((⌊a⌋ : ℤ) : ℚ) = ((⌊b⌋ : ℤ) : ℚ) := by exact_mod_cast hf
      simp only [Int.fract]
      linarith
    unfold pyRound
    rw [hf]
    split_ifs <;> first | omega | linarith

lemma pyRound_zero : pyRound 0 = 0 := by
  unfold pyRound
  norm_num [Int.fract]

lemma pyRound_hundred : pyRound 100 = 100 := by
  unfold pyRound
  norm_num [Int.fract]

lemma pyRound_clamp_comm (x : ℚ) :
    max 0 (min 100 (pyRound x)) = pyRound (max 0 (min 100 x)) := by
  rcases le_or_lt x 0 with h0 | h0
  · have h1 : pyRound x ≤ 0 := pyRound_zero ▸ pyRound_mono h0
    rw [min_eq_right (by linarith : (x:ℚ) ≤ 100),
      max_eq_left (by linarith : x ≤ (0:ℚ)), pyRound_zero,
      min_eq_right (by omega : pyRound x ≤ 100), max_eq_left h1]
  · rcases le_or_lt 100 x with h2 | h2
    · have h1 : 100 ≤ pyRound x := pyRound_hundred ▸ pyRound_mono h2
      rw [min_eq_left h2, max_eq_right (by linarith : (0:ℚ) ≤ 100), pyRound_hundred,
        min_eq_left h1, max_eq_right (by omega : (0:ℤ) ≤ 100)]
    · have hfl : (0:ℤ) ≤ ⌊x⌋ := Int.le_floor.2 (by exact_mod_cast h0.le)
      have hfu : ⌊x⌋ < 100 := Int.floor_lt.2 (by exact_mod_cast h2)
      have hl : (0:ℤ) ≤ pyRound x := le_trans hfl (le_pyRound x)
      have hu : pyRound x ≤ 100 := le_trans (pyRound_le x) (by omega)
      rw [min_eq_right hu, max_eq_right hl, min_eq_right h2.le,
        max_eq_right h0.le]

lemma splitChar_ne_nil (sep : Char) (l : List Char) : splitChar sep l ≠ [] := by
  cases l with
  | nil => simp [splitChar]
  | cons c cs =>
    simp only [splitChar]
    cases hq : splitChar sep cs with
    | nil => simp
    | cons h t => split_ifs <;> simp

lemma joinSep_nil_cons (sep : Char) (h : List Char) (t : List (List Char)) :
    joinSep sep ([] :: h :: t) = sep :: joinSep sep (h :: t) := by
  simp [joinSep]

lemma joinSep_cons_head (sep c : Char) (h : List Char) (t : List (List Char)) :
    joinSep sep ((c :: h) :: t) = c :: joinSep sep (h :: t) := by
  cases t <;> simp [joinSep]

lemma joinSep_splitChar (sep : Char) (l : List Char) :
    joinSep sep (splitChar sep l) = l := by
  induction l with
  | nil => rfl
  | cons c cs ih =>
    simp only [splitChar]
    cases hq : splitChar sep cs with
    | nil => exact absurd hq (splitChar_ne_nil sep cs)
    | cons h t =>
      rw [hq] at ih
      simp only [hq]
      split_ifs with hc
      · rw [joinSep_nil_cons, ih, hc]
      · rw [joinSep_cons_head, ih]

lemma spec_registrable_eq_base (netloc : String) :
    spec_registrable netloc = baseDomainOf (hostOf netloc) := by
  unfold spec_registrable baseDomainOf
  rcases le_or_lt 2 (splitChar '.' (hostOf netloc)).length with h2 | h2
  · rw [if_pos h2]
  · rw [if_neg (not_le.2 h2)]
    have hne := splitChar_ne_nil '.' (hostOf netloc)
    have hone : (splitChar '.' (hostOf netloc)).length = 1 := by
      have := List.length_pos.2 hne
      omega
    obtain ⟨p, hp⟩ := List.length_eq_one.1 hone
    have hjoin := joinSep_splitChar '.' (hostOf netloc)
    rw [hp] at hjoin ⊢
    simpa [joinSep] using hjoin

lemma clamp_nonneg (n : ℤ) : 0 ≤ max 0 (min 100 n) := le_max_left 0 _

lemma clamp_le_100 (n : ℤ) : max 0 (min 100 n) ≤ 100 :=
  max_le (by norm_num) (min_le_left _ _)

/-- C1: for every input review list, `analyze_reviews` returns a
`trust_score` in `[0, 100]` and a `bot_probability` in `[0, 100]`. -/
theorem trust_and_bot_in_range (hf : Option (List String → Option (List HFRes)))
    (tb : String → Option ℚ) (gemini : List Review → GeminiOut)
    (reviews_data : List Review) :
    0 ≤ (analyze_reviews hf tb gemini reviews_data).trust_score ∧
    (analyze_reviews hf tb gemini reviews_data).trust_score ≤ 100 ∧
    0 ≤ (analyze_reviews hf tb gemini reviews_data).bot_probability ∧
    (analyze_reviews hf tb gemini reviews_data).bot_probability ≤ 100 := by
  unfold analyze_reviews
  split_ifs
  · exact ⟨le_refl 0, by norm_num, le_refl 0, by norm_num⟩
  · exact ⟨clamp_nonneg _, clamp_le_100 _, clamp_nonneg _, clamp_le_100 _⟩

/-- C2: the empty review list short-circuits to the fixed zero/"Unknown"
assessment: `trust_score = 0`, `sentiment_score = 0.0`,
`bot_probability = 0`, `safety_label = "Unknown"`, empty pros and cons,
with no scoring step executed. -/
theorem analyze_empty_short_circuit (hf : Option (List String → Option (List HFRes)))
    (tb : String → Option ℚ) (gemini : List Review → GeminiOut) :
    (analyze_reviews hf tb gemini []).trust_score = 0 ∧
    (analyze_reviews hf tb gemini []).sentiment_score = 0 ∧
    (analyze_reviews hf tb gemini []).bot_probability = 0 ∧
    (analyze_reviews hf tb gemini []).safety_label = "Unknown" ∧
    (analyze_reviews hf tb gemini []).pros = [] ∧
    (analyze_reviews hf tb gemini []).cons = [] :=
  ⟨rfl, rfl, rfl, rfl, rfl, rfl⟩

/-- C4: `check_phishing` is total (its result is always one of the four
verdict strings, modelling that no exception escapes), and every parse
failure — the only failure point of the body — yields `"Unknown"`. -/
theorem check_phishing_total_and_unknown (parse : String → Option String)
    (url : String) :
    (check_phishing parse url = "Safe" ∨
      check_phishing parse url = "Phishing Warning" ∨
      check_phishing parse url = "Suspicious" ∨
      check_phishing parse url = "Unknown") ∧
    (parse url = none → check_phishing parse url = "Unknown") := by
  constructor
  · cases hp : parse url with
    | none => simp [check_phishing, hp]
    | some netloc =>
      simp only [check_phishing, hp, classifyHost]
      split_ifs <;> simp
  · intro hn
    simp [check_phishing, hn]

/-- Witness for C4 at a concrete unparsable URL: the oracle raising on
`"http://["` makes `check_phishing` return `"Unknown"`. -/
theorem check_phishing_total_and_unknown_witness :
    check_phishing (fun _ => none) "http://[" = "Unknown" :=
  (check_phishing_total_and_unknown (fun _ => none) "http://[").2 rfl

/-- C8: every polarity list `analyze_reviews` computes comes wholesale
from one estimator path: either the model path produced every element
(`hf` present, batch call succeeded with a non-empty result list), or
the TextBlob fallback produced every element; the two paths are never
mixed element-wise. -/
theorem sentiment_single_path (hf : Option (List String → Option (List HFRes)))
    (tb : String → Option ℚ) (texts : List String) :
    (∃ f results, hf = some f ∧ f texts = some results ∧ results ≠ [] ∧
      computePolarities hf tb texts = results.map hfPolarity) ∨
    computePolarities hf tb texts = texts.map (fun t => (tb t).getD 0) := by
  rcases hf with _ | f
  · right
    simp [computePolarities, hfPart]
  · by_cases htex : texts = []
    · right
      simp [computePolarities, hfPart, htex]
    · cases hres : f texts with
      | none =>
        right
        simp [computePolarities, hfPart, htex, hres]
      | some results =>
        by_cases hrnil : results = []
        · right
          simp [computePolarities, hfPart, htex, hres, hrnil]
        · left
          refine ⟨f, results, rfl, hres, hrnil, ?_⟩
          have hpart : hfPart (some f) texts = results.map hfPolarity := by
            simp [hfPart, htex, hres]
          rw [computePolarities, hpart, if_neg (by simpa using hrnil)]

/-- C3: for every URL the parse oracle resolves to a host,
`check_phishing` classifies in three ordered tiers: `"Safe"` when the
registrable domain (join of the last two dot-separated labels of the
lower-cased, port-stripped host) or the full host is a whitelist entry;
otherwise `"Phishing Warning"` when the registrable domain is within
Levenshtein distance 2 of some whitelist entry; otherwise
`"Suspicious"`. -/
theorem check_phishing_three_tiers (parse : String → Option String)
    (url : String) (netloc : String) (h : parse url = some netloc) :
    check_phishing parse url =
      (if spec_registrable netloc ∈ WLdata ∨ hostOf netloc ∈ WLdata then "Safe"
       else if ∃ safe ∈ WLdata, levDist (spec_registrable netloc) safe ≤ 2 then
         "Phishing Warning"
       else "Suspicious") := by
  rw [check_phishing, h, spec_registrable_eq_base]
  rfl

/-- Witness for C3 at the concrete host `www.amazon.com`. -/
theorem check_phishing_three_tiers_witness :
    (fun _ : String => some "www.amazon.com") "https://www.amazon.com/x" =
      some "www.amazon.com" ∧
    check_phishing (fun _ => some "www.amazon.com") "https://www.amazon.com/x" =
      (if spec_registrable "www.amazon.com" ∈ WLdata ∨
          hostOf "www.amazon.com" ∈ WLdata then "Safe"
       else if ∃ safe ∈ WLdata,
          levDist (spec_registrable "www.amazon.com") safe ≤ 2 then
         "Phishing Warning"
       else "Suspicious") :=
  ⟨rfl, check_phishing_three_tiers _ _ _ rfl⟩

lemma discPenalty_eq_of_le (nr s : ℚ) (h : s ≤ nr + 1/2) :
    discPenalty |nr - s| = if 1/2 < nr - s then (nr - s - 1/2) * 30 else 0 := by
  rcases le_or_lt (nr - s) (1/2) with h1 | h1
  · have habs : |nr - s| ≤ 1/2 := abs_le.2 ⟨by linarith, h1⟩
    rw [discPenalty, if_neg (by push_neg; linarith), if_neg (by push_neg; linarith)]
  · have habs : |nr - s| = nr - s := abs_of_pos (by linarith)
    rw [discPenalty, habs, if_pos h1]

lemma rawScore_mono_sent (s1 s2 avgR : ℚ) (texts : List String)
    (h12 : s1 ≤ s2) (h2 : s2 ≤ normalizedRating avgR + 1/2) :
    rawScore s1 avgR texts ≤ rawScore s2 avgR texts := by
  have h1 : s1 ≤ normalizedRating avgR + 1/2 := le_trans h12 h2
  unfold rawScore baseScore sentimentComponent discrepancyOf
  rw [discPenalty_eq_of_le _ _ h1, discPenalty_eq_of_le _ _ h2]
  split_ifs <;> linarith

/-- C5 (amended): holding the review texts and the average rating fixed,
increasing `avg_sentiment` never decreases the computed trust score as
long as the larger sentiment does not exceed `normalized_rating + 0.5`;
beyond that threshold the discrepancy penalty (30 per unit) outgrows the
sentiment component gain (22.5 per unit), see the counterexample. -/
theorem trust_monotone_in_sentiment_amended (s1 s2 avgR : ℚ)
    (texts : List String) (h12 : s1 ≤ s2)
    (h2 : s2 ≤ normalizedRating avgR + 1/2) :
    finalScore s1 avgR texts ≤ finalScore s2 avgR texts := by
  have hr := rawScore_mono_sent s1 s2 avgR texts h12 h2
  unfold finalScore
  exact max_le_max le_rfl (min_le_min le_rfl (pyRound_mono hr))

/-- Witness for the amended C5 at `s1 = 0 ≤ s2 = 1`, `avg_rating = 5`. -/
theorem trust_monotone_in_sentiment_amended_witness :
    (0:ℚ) ≤ 1 ∧ (1:ℚ) ≤ normalizedRating 5 + 1/2 ∧
    finalScore 0 5 ["This product is great stuff"] ≤
      finalScore 1 5 ["This product is great stuff"] :=
  ⟨by norm_num, by norm_num [normalizedRating],
    trust_monotone_in_sentiment_amended 0 1 5 _ (by norm_num)
      (by norm_num [normalizedRating])⟩

/-- Counterexample to C5 as stated: one fixed review (text length 27,
rating 0), sentiment oracle raised from 0 to 1; the trust score drops
from 29 to 22, because the discrepancy penalty grows faster than the
sentiment component.  The only varying signal is the average sentiment
(0 for the first call, 1 for the second). -/
theorem trust_monotone_in_sentiment_cex :
    avgSentimentOf none (fun _ => some 0)
      (textsOf [⟨"This product is great stuff", 0, "", false, ""⟩]) = 0 ∧
    avgSentimentOf none (fun _ => some 1)
      (textsOf [⟨"This product is great stuff", 0, "", false, ""⟩]) = 1 ∧
    (analyze_reviews none (fun _ => some 0) gemOff
      [⟨"This product is great stuff", 0, "", false, ""⟩]).trust_score = 29 ∧
    (analyze_reviews none (fun _ => some 1) gemOff
      [⟨"This product is great stuff", 0, "", false, ""⟩]).trust_score = 22 ∧
    ¬ ((29:ℤ) ≤ 22) := by
  have hlen : "This product is great stuff".length = 27 := by decide
  refine ⟨?_, ?_, ?_, ?_, by norm_num⟩ <;>
    norm_num [hlen, analyze_reviews, textsOf, ratingsOf, avgSentimentOf,
      computePolarities, hfPart, mean, avgRatingOf, finalScore, rawScore, baseScore,
      sentimentComponent, ratingComponent, volumeComponent, discrepancyOf,
      normalizedRating, discPenalty, dupPenalty, duplicatesCountZ, shortFraction,
      duplicateFraction, pyRound, Int.fract, abs_of_nonpos, abs_of_nonneg]

/-- C6: for every non-empty review list the reported bot probability is
the additive composition `60·duplicate_fraction + 30·short_fraction`,
plus `min 20 ((discrepancy − 0.6)·50)` when `discrepancy > 0.6`, plus
`10` when `review_count ≥ 20`, `rating_std < 0.2` (stated on squares)
and `avg_rating > 4.7`, the sum clamped to `[0, 100]` and rounded to the
nearest integer (rounding and clamping commute here). -/
theorem bot_probability_composition (hf : Option (List String → Option (List HFRes)))
    (tb : String → Option ℚ) (gemini : List Review → GeminiOut)
    (reviews_data : List Review) (h : reviews_data ≠ []) :
    (analyze_reviews hf tb gemini reviews_data).bot_probability =
      pyRound (max 0 (min 100 (
        60 * duplicateFraction (textsOf reviews_data)
        + 30 * shortFraction (textsOf reviews_data)
        + (if discrepancyOf (avgRatingOf (ratingsOf reviews_data))
              (avgSentimentOf hf tb (textsOf reviews_data)) > 6/10 then
            min 20 ((discrepancyOf (avgRatingOf (ratingsOf reviews_data))
              (avgSentimentOf hf tb (textsOf reviews_data)) - 6/10) * 50)
          else 0)
        + (if (textsOf reviews_data).length ≥ 20 ∧
              ratingVar (ratingsOf reviews_data) < (2/10)^2 ∧
              avgRatingOf (ratingsOf reviews_data) > 47/10 then 10 else 0)))) := by
  have htex : textsOf reviews_data ≠ [] := by
    simpa [textsOf] using h
  unfold analyze_reviews
  rw [if_neg htex]
  show botProb _ _ _ _ = _
  have hsum : botProbRaw (textsOf reviews_data) (ratingsOf reviews_data)
      (avgSentimentOf hf tb (textsOf reviews_data))
      (avgRatingOf (ratingsOf reviews_data)) =
      60 * duplicateFraction (textsOf reviews_data)
        + 30 * shortFraction (textsOf reviews_data)
        + (if discrepancyOf (avgRatingOf (ratingsOf reviews_data))
              (avgSentimentOf hf tb (textsOf reviews_data)) > 6/10 then
            min 20 ((discrepancyOf (avgRatingOf (ratingsOf reviews_data))
              (avgSentimentOf hf tb (textsOf reviews_data)) - 6/10) * 50)
          else 0)
        + (if (textsOf reviews_data).length ≥ 20 ∧
              ratingVar (ratingsOf reviews_data) < (2/10)^2 ∧
              avgRatingOf (ratingsOf reviews_data) > 47/10 then 10 else 0) := by
    unfold botProbRaw discTermBot uniformityTerm
    ring
  rw [botProb, pyRound_clamp_comm, hsum]

/-- Witness for C6 at a concrete one-review input. -/
theorem bot_probability_composition_witness :
    ([⟨"This product is great stuff", 0, "", false, ""⟩] : List Review) ≠ [] ∧
    (analyze_reviews none (fun _ => some 0) gemOff
      [⟨"This product is great stuff", 0, "", false, ""⟩]).bot_probability =
      pyRound (max 0 (min 100 (
        60 * duplicateFraction (textsOf [⟨"This product is great stuff", 0, "", false, ""⟩])
        + 30 * shortFraction (textsOf [⟨"This product is great stuff", 0, "", false, ""⟩])
        + (if discrepancyOf (avgRatingOf (ratingsOf [⟨"This product is great stuff", 0, "", false, ""⟩]))
              (avgSentimentOf none (fun _ => some 0)
                (textsOf [⟨"This product is great stuff", 0, "", false, ""⟩])) > 6/10 then
            min 20 ((discrepancyOf (avgRatingOf (ratingsOf [⟨"This product is great stuff", 0, "", false, ""⟩]))
              (avgSentimentOf none (fun _ => some 0)
                (textsOf [⟨"This product is great stuff", 0, "", false, ""⟩])) - 6/10) * 50)
          else 0)
        + (if (textsOf [⟨"This product is great stuff", 0, "", false, ""⟩]).length ≥ 20 ∧
              ratingVar (ratingsOf [⟨"This product is great stuff", 0, "", false, ""⟩]) < (2/10)^2 ∧
              avgRatingOf (ratingsOf [⟨"This product is great stuff", 0, "", false, ""⟩]) > 47/10
           then 10 else 0)))) :=
  ⟨by simp, bot_probability_composition none (fun _ => some 0) gemOff _ (by simp)⟩

/-- Counterexample to C7 as stated: two identical 42-character reviews.
The code's duplicate fraction is `(2 − 1)/2 = 1/2` and the resulting
bot probability is `30`, while the claimed "count of non-unique texts"
fraction is `2/2 = 1`, under which the same composition would give
`60`. -/
theorem duplicate_fraction_cex :
    duplicateFraction [dupText, dupText] = 1/2 ∧
    nonUniqueFraction [dupText, dupText] = 1 ∧
    ((1:ℚ)/2 ≠ 1) ∧
    (analyze_reviews none (fun _ => some (1/5)) gemOff
      [⟨dupText, 3, "", false, ""⟩, ⟨dupText, 3, "", false, ""⟩]).bot_probability = 30 ∧
    max 0 (min 100 (pyRound (nonUniqueFraction [dupText, dupText] * 60
      + shortFraction [dupText, dupText] * 30
      + discTermBot (discrepancyOf (avgRatingOf [3, 3]) (1/5))
      + uniformityTerm 2 [3, 3] (avgRatingOf [3, 3])))) = 60 := by
  have hded : ([dupText, dupText].dedup).length = 1 := by decide
  have hcnt : ([dupText, dupText].filter
      (fun t => 1 < [dupText, dupText].count t)).length = 2 := by decide
  have hsh : ([dupText, dupText].filter (fun t => t.length < 30)).length = 0 := by decide
  have hdup : duplicateFraction [dupText, dupText] = 1/2 := by
    rw [duplicateFraction,
      if_pos (by norm_num : 0 < ([dupText, dupText] : List String).length),
      duplicatesCountZ, hded]
    norm_num
  have hnon : nonUniqueFraction [dupText, dupText] = 1 := by
    rw [nonUniqueFraction, hcnt]
    norm_num
  have hshf : shortFraction [dupText, dupText] = 0 := by
    rw [shortFraction,
      if_pos (by norm_num : 0 < ([dupText, dupText] : List String).length), hsh]
    norm_num
  have havg : avgRatingOf [3, 3] = 3 := by
    rw [avgRatingOf, if_neg (by simp)]
    norm_num [mean]
  have hsent : avgSentimentOf none (fun _ => some (1/5)) [dupText, dupText] = 1/5 := by
    have hcp : computePolarities none (fun _ => some (1/5)) [dupText, dupText] =
        [1/5, 1/5] := rfl
    rw [avgSentimentOf, hcp, if_neg (by simp)]
    norm_num [mean]
  have hdisc : discrepancyOf 3 (1/5) = 0 := by
    norm_num [discrepancyOf, normalizedRating]
  have hraw : botProbRaw [dupText, dupText] [3, 3] (1/5) 3 = 30 := by
    rw [botProbRaw, hdup, hshf, hdisc]
    norm_num [discTermBot, uniformityTerm]
  refine ⟨hdup, hnon, by norm_num, ?_, ?_⟩
  · have htex : textsOf [⟨dupText, 3, "", false, ""⟩, ⟨dupText, 3, "", false, ""⟩] =
        [dupText, dupText] := rfl
    have hrat : ratingsOf [⟨dupText, 3, "", false, ""⟩, ⟨dupText, 3, "", false, ""⟩] =
        [3, 3] := rfl
    unfold analyze_reviews
    rw [htex, hrat, if_neg (by simp)]
    show botProb [dupText, dupText] [3, 3]
      (avgSentimentOf none (fun _ => some (1/5)) [dupText, dupText]) (avgRatingOf [3, 3]) = 30
    rw [botProb, hsent, havg, hraw]
    norm_num [pyRound, Int.fract]
  · rw [hnon, hshf, havg, hdisc]
    norm_num [discTermBot, uniformityTerm, pyRound, Int.fract]

/-- C7 (amended): for every non-empty review list the duplicate fraction
used by the bot-probability computation equals
`(review_count − number of distinct texts) / review_count`, texts being
compared by exact (case- and whitespace-sensitive) string equality. -/
theorem duplicate_fraction_amended (texts : List String) (h : texts ≠ []) :
    duplicateFraction texts =
      ((texts.length : ℚ) - (texts.dedup.length : ℚ)) / (texts.length : ℚ) := by
  have hd : texts.dedup.length ≤ texts.length := (List.dedup_sublist texts).length_le
  have hl : 0 < texts.length := List.length_pos.2 h
  rw [duplicateFraction, if_pos hl, duplicatesCountZ,
    max_eq_right (by omega : (0:ℤ) ≤ (texts.length : ℤ) - (texts.dedup.length : ℤ))]
  push_cast
  ring

/-- Witness for the amended C7 at `["a", "a", "b"]`. -/
theorem duplicate_fraction_amended_witness :
    (["a", "a", "b"] : List String) ≠ [] ∧
    duplicateFraction ["a", "a", "b"] =
      (((["a", "a", "b"] : List String).length : ℚ)
        - ((["a", "a", "b"] : List String).dedup.length : ℚ))
        / ((["a", "a", "b"] : List String).length : ℚ) :=
  ⟨by simp, duplicate_fraction_amended _ (by simp)⟩

/-- C9: for every review set whose average rating is 5.0 and average
sentiment is −1.0, the discrepancy is 2.0, the bot-probability
discrepancy term sits at its cap of exactly 20 (its maximum over all
discrepancies), and the score's discrepancy subtraction is 45, its
maximum over the reachable discrepancy range `[0, 2]`. -/
theorem discrepancy_maximal_case (hf : Option (List String → Option (List HFRes)))
    (tb : String → Option ℚ) (reviews_data : List Review)
    (h1 : avgRatingOf (ratingsOf reviews_data) = 5)
    (h2 : avgSentimentOf hf tb (textsOf reviews_data) = -1) :
    discrepancyOf (avgRatingOf (ratingsOf reviews_data))
        (avgSentimentOf hf tb (textsOf reviews_data)) = 2 ∧
    discTermBot (discrepancyOf (avgRatingOf (ratingsOf reviews_data))
        (avgSentimentOf hf tb (textsOf reviews_data))) = 20 ∧
    (∀ d : ℚ, discTermBot d ≤ 20) ∧
    discPenalty (discrepancyOf (avgRatingOf (ratingsOf reviews_data))
        (avgSentimentOf hf tb (textsOf reviews_data))) = 45 ∧
    (∀ d : ℚ, 0 ≤ d → d ≤ 2 → discPenalty d ≤ 45) := by
  rw [h1, h2]
  have hd : discrepancyOf 5 (-1) = 2 := by
    norm_num [discrepancyOf, normalizedRating, abs_of_nonneg]
  refine ⟨hd, ?_, ?_, ?_, ?_⟩
  · rw [hd, discTermBot, if_pos (by norm_num : (2:ℚ) > 6/10)]
    norm_num [min_def]
  · intro d
    rw [discTermBot]
    split_ifs
    · exact min_le_left _ _
    · norm_num
  · rw [hd, discPenalty, if_pos (by norm_num : (2:ℚ) > 1/2)]
    norm_num
  · intro d h0 hd2
    rw [discPenalty]
    split_ifs
    · linarith
    · norm_num

/-- Witness for C9: one five-star review whose sentiment oracle returns
−1. -/
theorem discrepancy_maximal_case_witness :
    avgRatingOf (ratingsOf [⟨"bad", 5, "", false, ""⟩]) = 5 ∧
    avgSentimentOf none (fun _ => some (-1))
      (textsOf [⟨"bad", 5, "", false, ""⟩]) = -1 ∧
    discrepancyOf (avgRatingOf (ratingsOf [⟨"bad", 5, "", false, ""⟩]))
      (avgSentimentOf none (fun _ => some (-1))
        (textsOf [⟨"bad", 5, "", false, ""⟩])) = 2 ∧
    discTermBot (discrepancyOf (avgRatingOf (ratingsOf [⟨"bad", 5, "", false, ""⟩]))
      (avgSentimentOf none (fun _ => some (-1))
        (textsOf [⟨"bad", 5, "", false, ""⟩]))) = 20 ∧
    discPenalty (discrepancyOf (avgRatingOf (ratingsOf [⟨"bad", 5, "", false, ""⟩]))
      (avgSentimentOf none (fun _ => some (-1))
        (textsOf [⟨"bad", 5, "", false, ""⟩]))) = 45 := by
  have ha : avgRatingOf (ratingsOf [⟨"bad", 5, "", false, ""⟩]) = 5 := by
    rw [show ratingsOf [⟨"bad", 5, "", false, ""⟩] = [5] from rfl, avgRatingOf,
      if_neg (by simp)]
    norm_num [mean]
  have hs : avgSentimentOf none (fun _ => some (-1))
      (textsOf [⟨"bad", 5, "", false, ""⟩]) = -1 := by
    have hcp : computePolarities none (fun _ => some (-1))
        (textsOf [⟨"bad", 5, "", false, ""⟩]) = [-1] := rfl
    rw [avgSentimentOf, hcp, if_neg (by simp)]
    norm_num [mean]
  have h := discrepancy_maximal_case none (fun _ => some (-1))
    [⟨"bad", 5, "", false, ""⟩] ha hs
  exact ⟨ha, hs, h.1, h.2.1, h.2.2.2.1⟩

/-- C10: two review lists of equal length agreeing pairwise on `text`
and `rating` (dates, verified flags and platforms arbitrary) receive
identical `trust_score`, `sentiment_score`, `bot_probability` and
`safety_label`: the numeric scoring reads only text and rating. -/
theorem scores_read_only_text_and_rating
    (hf : Option (List String → Option (List HFRes))) (tb : String → Option ℚ)
    (gemini : List Review → GeminiOut) (rs1 rs2 : List Review)
    (hlen : rs1.length = rs2.length)
    (hagree : ∀ (i : ℕ) (h1 : i < rs1.length) (h2 : i < rs2.length),
      rs1[i].text = rs2[i].text ∧ rs1[i].rating = rs2[i].rating) :
    (analyze_reviews hf tb gemini rs1).trust_score =
      (analyze_reviews hf tb gemini rs2).trust_score ∧
    (analyze_reviews hf tb gemini rs1).sentiment_score =
      (analyze_reviews hf tb gemini rs2).sentiment_score ∧
    (analyze_reviews hf tb gemini rs1).bot_probability =
      (analyze_reviews hf tb gemini rs2).bot_probability ∧
    (analyze_reviews hf tb gemini rs1).safety_label =
      (analyze_reviews hf tb gemini rs2).safety_label := by
  have ht : textsOf rs1 = textsOf rs2 := by
    apply List.ext_getElem (by simpa [textsOf] using hlen)
    intro i hi1 hi2
    simp only [textsOf, List.getElem_map]
    exact (hagree i (by simpa [textsOf] using hi1) (by simpa [textsOf] using hi2)).1
  have hr : ratingsOf rs1 = ratingsOf rs2 := by
    apply List.ext_getElem (by simpa [ratingsOf] using hlen)
    intro i hi1 hi2
    simp only [ratingsOf, List.getElem_map]
    exact (hagree i (by simpa [ratingsOf] using hi1) (by simpa [ratingsOf] using hi2)).2
  unfold analyze_reviews
  rw [ht, hr]
  split_ifs <;> exact ⟨rfl, rfl, rfl, rfl⟩

/-- Witness for C10: two single-review lists sharing text and rating but
differing in date, verified flag and platform. -/
theorem scores_read_only_text_and_rating_witness :
    ([⟨"good item", 5, "2024-01-01", true, "Amazon"⟩] : List Review).length =
      ([⟨"good item", 5, "2023-05-05", false, "Flipkart"⟩] : List Review).length ∧
    (analyze_reviews none (fun _ => some 0) gemOff
        [⟨"good item", 5, "2024-01-01", true, "Amazon"⟩]).trust_score =
      (analyze_reviews none (fun _ => some 0) gemOff
        [⟨"good item", 5, "2023-05-05", false, "Flipkart"⟩]).trust_score ∧
    (analyze_reviews none (fun _ => some 0) gemOff
        [⟨"good item", 5, "2024-01-01", true, "Amazon"⟩]).sentiment_score =
      (analyze_reviews none (fun _ => some 0) gemOff
        [⟨"good item", 5, "2023-05-05", false, "Flipkart"⟩]).sentiment_score ∧
    (analyze_reviews none (fun _ => some 0) gemOff
        [⟨"good item", 5, "2024-01-01", true, "Amazon"⟩]).bot_probability =
      (analyze_reviews none (fun _ => some 0) gemOff
        [⟨"good item", 5, "2023-05-05", false, "Flipkart"⟩]).bot_probability ∧
    (analyze_reviews none (fun _ => some 0) gemOff
        [⟨"good item", 5, "2024-01-01", true, "Amazon"⟩]).safety_label =
      (analyze_reviews none (fun _ => some 0) gemOff
        [⟨"good item", 5, "2023-05-05", false, "Flipkart"⟩]).safety_label :=
  ⟨rfl, scores_read_only_text_and_rating none (fun _ => some 0) gemOff _ _ rfl
    (fun i h1 h2 => by
      have hi : i = 0 := by
        simp only [List.length_singleton] at h1
        omega
      subst hi
      exact ⟨rfl, rfl⟩)⟩

end TruthLens
